import Mathlib

/-!
Shallow embedding of the REVELATION core scanning and scoring pipeline
(crates/revelation-core), covering:

* `ui/results.rs`   — the API data model (`ApiImport`, `ApiCategory`,
  `ApiFinding`, `ApiAnalysisResult`);
* `analysis/api_classifier.rs` — `classify_one` / `classify_imports`;
* `analysis/api_score.rs`      — `base_points`, `bonus_for`, `score`;
* `report.rs`       — `YaraRuleMatch`, `FileFinding`, `score_finding`;
* `scan.rs`         — the per-file pipeline of `scan_files`, its counters
  and progress events, modelled as an explicit fold over the enumerated
  file list together with a per-file environment (stat / matcher /
  extractor outcomes supplied by the outside world).

Machine integers are modelled as `Nat` with an explicit `% 2^32` at the
places where the Rust code performs a plain (wrapping-on-release) `u32`
addition or an `as u32` cast, and `min _ (2^32 - 1)` where it performs a
saturating operation.  The `u64` scan counters increase by at most one per
enumerated file, so they are modelled as plain `Nat`.
-/

namespace Revelation

/-- The `u32` modulus, `2^32`. -/
def M32 : Nat := 4294967296

/-! ## Rust string primitives

Rust `str::contains` is substring containment; all the needles used by the
classifier are ASCII, for which byte-level containment coincides with
character-level containment.  `to_ascii_lowercase` lowercases exactly the
ASCII uppercase letters. -/

/-- Character-list version of "the second list is a prefix of the first". -/
def startsWithChs : List Char → List Char → Bool
  | _, [] => true
  | [], _ :: _ => false
  | a :: as, b :: bs => a = b && startsWithChs as bs

/-- Character-list substring containment: `needle` occurs inside `hay`
(Rust `str::contains`). -/
def hasSubChs : List Char → List Char → Bool
  | [], needle => needle.isEmpty
  | hay@(_ :: t), needle => startsWithChs hay needle || hasSubChs t needle

/-- Rust `hay.contains(needle)` on strings. -/
def strContains (hay needle : String) : Bool :=
  hasSubChs hay.data needle.data

/-- Rust `char::to_ascii_lowercase`: shift `A`..`Z` down by 32, leave
every other character unchanged. -/
def asciiLowerChar (c : Char) : Char :=
  if 'A' ≤ c ∧ c ≤ 'Z' then Char.ofNat (c.toNat + 32) else c

/-- Rust `str::to_ascii_lowercase`. -/
def asciiLower (s : String) : String :=
  String.mk (s.data.map asciiLowerChar)

/-! ## Data model (`ui/results.rs`) -/

/-- Rust `ApiCategory` from `ui/results.rs`. -/
inductive ApiCategory where
  | ProcessInjection
  | CredentialAccess
  | Persistence
  | CommandAndControl
  | Exfiltration
  | DefenseEvasion
  | PrivilegeEscalation
  | Networking
  | Crypto
  | Registry
  | Process
  | AntiDebug
  | Other
deriving DecidableEq, Repr

/-- Rust `ApiImport` from `ui/results.rs`.  The `ordinal` field is a `u16` in
the source; only its presence matters to the code modelled here. -/
structure ApiImport where
  dll : String
  name : Option String
  is_ordinal : Bool
  ordinal : Option Nat
deriving DecidableEq, Repr

/-- Rust `ApiImport::dll_lower` from `ui/results.rs`. -/
def ApiImport.dll_lower (i : ApiImport) : String :=
  asciiLower i.dll

/-- Rust `ApiImport::name_lower` from `ui/results.rs`: the lowercased import
name, or the empty string when the import has no name. -/
def ApiImport.name_lower (i : ApiImport) : String :=
  match i.name with
  | some s => asciiLower s
  | none => ""

/-- Rust `ApiFinding` from `ui/results.rs`.  The `score` field is a `u32`. -/
structure ApiFinding where
  api : ApiImport
  category : ApiCategory
  score : Nat
  reasons : List String
deriving DecidableEq, Repr

/-- Rust `ApiAnalysisResult` from `ui/results.rs`. -/
structure ApiAnalysisResult where
  total_score : Nat
  severity : String
  imports_total : Nat
  suspicious_total : Nat
  top : List ApiFinding
  category_scores : List (ApiCategory × Nat)
  is_pe : Bool
  note : Option String
deriving DecidableEq, Repr

/-! ## API classifier (`analysis/api_classifier.rs`) -/

/-- Rust `ClassifiedImport` from `analysis/api_classifier.rs`. -/
structure ClassifiedImport where
  api : ApiImport
  category : ApiCategory
  suspicious : Bool
  reasons : List String
deriving DecidableEq, Repr

/-- Rust `has_any` from `analysis/api_classifier.rs`: does any needle occur in
the given (already lowercased) name? -/
def has_any (api : String) (needles : List String) : Bool :=
  needles.any (fun n => strContains api n)

/-- Needle table of the registry rule in `classify_one`. -/
def registry_apis : List String :=
  ["regsetvalue", "regcreatekey", "regopenkey"]

/-- Needle table of the kernel32 process-launch rule in `classify_one`. -/
def process_apis : List String :=
  ["createprocess", "winexec", "shellexecute"]

/-- Needle table of the process-injection rule in `classify_one`. -/
def injection_apis : List String :=
  ["createremotethread", "virtualallocex", "writeprocessmemory",
   "openprocess", "setthreadcontext", "getthreadcontext", "resumethread",
   "rtlmovememory", "ntunmapviewofsection", "queueuserapc"]

/-- Needle table of the networking rule in `classify_one`. -/
def network_apis : List String :=
  ["internetopen", "internetconnect", "httpopenrequest", "httpsendrequest",
   "internetreadfile", "urldownloadtofile", "winhttpopen",
   "winhttpsendrequest", "winhttpreceiveresponse", "wsastartup", "connect",
   "recv", "send"]

/-- Needle table of the crypto rule in `classify_one`. -/
def crypto_apis : List String :=
  ["cryptacquirecontext", "cryptencrypt", "cryptdecrypt", "bcrypt",
   "bcryptencrypt", "bcryptdecrypt"]

/-- Needle table of the anti-debug rule in `classify_one`. -/
def antidebug_apis : List String :=
  ["isdebuggerpresent", "checkremotedebuggerpresent",
   "ntqueryinformationprocess"]

/-- Rust `classify_one` from `analysis/api_classifier.rs`: fixed priority order,
first matching rule wins. -/
def classify_one (imp : ApiImport) : ApiCategory × Bool × List String :=
  let dll := imp.dll_lower
  let api := imp.name_lower
  if imp.is_ordinal then
    (ApiCategory.Other, true, ["Import by ordinal"])
  else if strContains dll "advapi32" && has_any api registry_apis then
    (ApiCategory.Registry, true, ["Registry modification"])
  else if strContains dll "kernel32" && has_any api process_apis then
    (ApiCategory.Process, true, ["Process execution"])
  else if has_any api injection_apis then
    (ApiCategory.ProcessInjection, true, ["Common injection primitive"])
  else if has_any api network_apis || strContains dll "wininet" ||
      strContains dll "winhttp" || strContains dll "ws2_32" then
    (ApiCategory.Networking, true, ["Network capability"])
  else if has_any api crypto_apis then
    (ApiCategory.Crypto, true, ["Crypto API usage"])
  else if has_any api antidebug_apis then
    (ApiCategory.AntiDebug, true, ["Anti-debug technique"])
  else
    (ApiCategory.Other, false, [])

/-- Rust `classify_imports` from `analysis/api_classifier.rs`. -/
def classify_imports (imports : List ApiImport) : List ClassifiedImport :=
  imports.map (fun imp =>
    let r := classify_one imp
    { api := imp, category := r.1, suspicious := r.2.1, reasons := r.2.2 })

/-! ## API risk scorer (`analysis/api_score.rs`) -/

/-! Rust's `slice::sort_by` is a stable sort.  It is modelled by a stable
insertion sort: `lt a b` reads "a must come strictly before b", and an
element is inserted after every element it is not strictly before, so
elements that compare equal keep their original relative order. -/

/-- Stable insertion of one element: `a` goes before the first element it
strictly precedes. -/
def insertBy {α : Type} (lt : α → α → Bool) (a : α) : List α → List α
  | [] => [a]
  | b :: l => if lt a b then a :: b :: l else b :: insertBy lt a l

/-- Stable sort by the strict precedence test `lt` (Rust `sort_by` with a
comparator whose `Less` outcome is `lt`). -/
def sortBy {α : Type} (lt : α → α → Bool) (l : List α) : List α :=
  l.foldl (fun acc a => insertBy lt a acc) []

/-- Rust `sev_from_score` from `analysis/api_score.rs`. -/
def sev_from_score (score : Nat) : String :=
  if 85 ≤ score then "High"
  else if 60 ≤ score then "Medium"
  else if 0 < score then "Low"
  else "None"

/-- Rust `base_points` from `analysis/api_score.rs`. -/
def base_points (cat : ApiCategory) : Nat :=
  match cat with
  | ApiCategory.ProcessInjection => 45
  | ApiCategory.CredentialAccess => 40
  | ApiCategory.Persistence => 35
  | ApiCategory.CommandAndControl => 30
  | ApiCategory.Exfiltration => 30
  | ApiCategory.DefenseEvasion => 28
  | ApiCategory.PrivilegeEscalation => 28
  | ApiCategory.Networking => 22
  | ApiCategory.Crypto => 18
  | ApiCategory.Registry => 18
  | ApiCategory.Process => 16
  | ApiCategory.AntiDebug => 16
  | _ => 8

/-- Rust `bonus_for` from `analysis/api_score.rs`. -/
def bonus_for (imp : ApiImport) : Nat :=
  if imp.is_ordinal then 12
  else
    let a := imp.name_lower
    if strContains a "createremotethread" || strContains a "writeprocessmemory"
        || strContains a "virtualallocex" then 20
    else if strContains a "urldownloadtofile" || strContains a "httpsendrequest"
        then 10
    else 0

/-- The suspicious classified imports of a list, in input order (the loop
in `score` skips classified imports with `suspicious == false`). -/
def suspiciousOf (imports : List ApiImport) : List ClassifiedImport :=
  (classify_imports imports).filter (fun c => c.suspicious)

/-- Per-finding points for one suspicious classified import: the body of
the loop in `score` — `base_points(cat).saturating_add(bonus).min(100)`.
Base and bonus are at most 45 and 20, so the `u32` saturating add is the
plain sum. -/
def finding_points (c : ClassifiedImport) : Nat :=
  min (base_points c.category + bonus_for c.api) 100

/-- The `ApiFinding` the loop in `score` pushes for one suspicious
classified import, including the "High-signal API" reason appended when
the bonus is positive. -/
def finding_of (c : ClassifiedImport) : ApiFinding :=
  { api := c.api
    category := c.category
    score := finding_points c
    reasons := c.reasons ++ (if 0 < bonus_for c.api then ["High-signal API"] else []) }

/-- The finding list built by the loop in `score`, in input order. -/
def findings_of (imports : List ApiImport) : List ApiFinding :=
  (suspiciousOf imports).map finding_of

/-- The value the `category_scores` hash map holds for a category after
the loop in `score`: the `u32` (wrapping) sum of the points of the
suspicious findings in that category
(`*category_scores.entry(cat).or_insert(0) += points`). -/
def catTotal (imports : List ApiImport) (cat : ApiCategory) : Nat :=
  (((findings_of imports).filter (fun f => f.category = cat)).map
      (fun f => f.score)).sum % M32

/-- The key set of the `category_scores` hash map: the categories of the
suspicious findings, without duplicates. -/
def presentCats (imports : List ApiImport) : List ApiCategory :=
  ((suspiciousOf imports).map (fun c => c.category)).dedup

/-- An admissible iteration order of the `category_scores` hash map
(`HashMap::into_iter` yields each key exactly once, in an unspecified
order): a permutation of the key set. -/
def validOrder (imports : List ApiImport) (ord : List ApiCategory) : Prop :=
  ord.Perm (presentCats imports)

/-- Rust `score` from `analysis/api_score.rs`, parameterised by the iteration
order `ord` in which `HashMap::into_iter` yields the category entries
(Rust's hash map leaves this order unspecified; every `validOrder` is
admissible).  `sort_by` is Rust's stable sort, modelled by `mergeSort`;
the comparator `|a, b| b.cmp(a)` sorts descending.  The final
`iter().map().sum::<u32>()` is a wrapping `u32` sum, hence the `% M32`. -/
def scoreWithOrder (ord : List ApiCategory) (imports : List ApiImport) :
    ApiAnalysisResult :=
  if imports.isEmpty then
    { total_score := 0
      severity := "None"
      imports_total := imports.length
      suspicious_total := 0
      top := []
      category_scores := []
      is_pe := false
      note := some "No imports extracted" }
  else
    let findings := findings_of imports
    let sorted := sortBy (fun a b => b.score < a.score) findings
    let cats := ord.map (fun c => (c, catTotal imports c))
    let catsSorted := sortBy (fun a b => b.2 < a.2) cats
    let sum := ((catsSorted.map (fun p => p.2)).sum) % M32
    { total_score := min sum 100
      severity := sev_from_score (min sum 100)
      imports_total := imports.length
      suspicious_total := findings.length
      top := sorted.take 50
      category_scores := catsSorted
      is_pe := true
      note := none }

/-- The function `score` with the canonical (first-occurrence) enumeration of the hash
map keys — one admissible run of the nondeterministic `scoreWithOrder`. -/
def score (imports : List ApiImport) : ApiAnalysisResult :=
  scoreWithOrder (presentCats imports) imports

instance (l : List ApiImport) (ord : List ApiCategory) :
    Decidable (validOrder l ord) :=
  inferInstanceAs (Decidable (ord.Perm (presentCats l)))

/-! ## Report data model and finding scorer (`report.rs`) -/

/-- Rust `YaraStringMatch` from `report.rs` (`offset` is a `u64`). -/
structure YaraStringMatch where
  identifier : String
  offset : Nat
  data_preview : String
deriving DecidableEq, Repr

/-- Rust `YaraRuleMatch` from `report.rs`.  The source field `namespace` is a
Lean keyword and is called `ns` here. -/
structure YaraRuleMatch where
  rule : String
  ns : String
  tags : List String
  meta : List (String × String)
  strings : List YaraStringMatch
deriving DecidableEq, Repr

/-- Rust `FileFinding` from `report.rs` (`score` is a `u32`, `size` a `u64`). -/
structure FileFinding where
  path : String
  sha256 : Option String
  size : Nat
  yara : List YaraRuleMatch
  score : Nat
  api : Option ApiAnalysisResult
deriving DecidableEq, Repr

/-- Rust `score_finding` from `report.rs`, with exact `u32` semantics:
`yara_matches.len() as u32` truncates modulo `2^32`; `saturating_mul`
clamps at `2^32 - 1`; `sum::<u32>()` and the final `50 + _ + _` are
wrapping `u32` additions, hence the `% M32`. -/
def score_finding (yara_matches : List YaraRuleMatch) : Nat :=
  if yara_matches.isEmpty then 0
  else
    let rules_score := min ((yara_matches.length % M32) * 10) (M32 - 1)
    let strings_sum :=
      (yara_matches.map (fun m => m.strings.length % M32)).sum % M32
    let strings_score := min (strings_sum * 2) (M32 - 1)
    min ((50 + rules_score + strings_score) % M32) 100

/-- Total number of string hits across all matches (the quantity the spec
calls `total_string_hits`). -/
def totalStringHits (yara_matches : List YaraRuleMatch) : Nat :=
  (yara_matches.map (fun m => m.strings.length)).sum

/-- Modelled from the spec (§4.4): the Finding Scorer formula
`min(100, 50 + 10*rule_count + 2*total_string_hits)` for non-empty input,
`0` for empty input, written exactly as the spec states it, for
comparison with `score_finding`. -/
def spec_finding_score (yara_matches : List YaraRuleMatch) : Nat :=
  if yara_matches.isEmpty then 0
  else min 100 (50 + 10 * yara_matches.length + 2 * totalStringHits yara_matches)

/-! ## Scan orchestrator (`scan.rs`)

`scan_files` interleaves filesystem and matcher effects with counter
updates.  The effects are modelled as a per-file environment supplied by
the outside world: the stat outcome (`size`), the Pattern Matcher outcome
(`yara`), the import-extractor outcome (`imports`) and the hash outcome
(`hash`).  The `rayon` parallel map over the enumerated files is
serialised into a left fold; each file's counter updates and progress
callback form one atomic step of the fold.  The atomic `u64` counters and
the callback invocations (`events`, as `(scanned, total)` pairs) are
carried in an explicit state.  `matcherCalls` counts the invocations of
`engine.scan_file`, so that "the file was passed to the Pattern Matcher"
is observable in the model. -/

instance {ε α : Type} [DecidableEq ε] [DecidableEq α] :
    DecidableEq (Except ε α) := fun x y =>
  match x, y with
  | Except.error e, Except.error f =>
    if h : e = f then isTrue (by rw [h])
    else isFalse (by intro hh; injection hh; contradiction)
  | Except.error _, Except.ok _ => isFalse (by intro hh; exact Except.noConfusion hh)
  | Except.ok _, Except.error _ => isFalse (by intro hh; exact Except.noConfusion hh)
  | Except.ok a, Except.ok b =>
    if h : a = b then isTrue (by rw [h])
    else isFalse (by intro hh; injection hh; contradiction)

/-- Outside-world outcomes for one enumerated file. -/
structure FileEnv where
  size : Option Nat
  yara : Except String (List YaraRuleMatch)
  imports : Except String (List ApiImport)
  hash : Option String
deriving DecidableEq, Repr

/-- Configuration of `scan_files` (`ScanOptions` in `scan.rs`); `progress`
tells whether a progress callback was supplied. -/
structure ScanOpts where
  max_file_size_mb : Nat
  compute_hashes : Bool
  progress : Bool
deriving DecidableEq, Repr

/-- Rust `max_bytes` in `scan_files`: `max_file_size_mb.saturating_mul(1024*1024)`
on `u64`. -/
def maxBytes (opts : ScanOpts) : Nat :=
  min (opts.max_file_size_mb * 1048576) (18446744073709551615)

/-- The mutable state of one `scan_files` run: the four atomic counters,
the matcher-invocation count, the progress events and the collected
findings. -/
structure ScanState where
  scanned : Nat
  matched : Nat
  denied : Nat
  skipped : Nat
  matcherCalls : Nat
  events : List (Nat × Nat)
  findings : List FileFinding
deriving DecidableEq, Repr

/-- One `cb(s, total)` invocation (recorded only when a callback was
supplied). -/
def pushEvent (opts : ScanOpts) (total : Nat) (st : ScanState) : ScanState :=
  if opts.progress then { st with events := st.events ++ [(st.scanned, total)] }
  else st

/-- The body of the `filter_map` closure in `scan_files` for one file:
stat, size gate, matcher, import extraction, progress, finding emission.
`std::fs::metadata(p).ok()?` returns from the closure without touching any
counter when the stat fails. -/
def processOne (opts : ScanOpts) (total : Nat) (st : ScanState)
    (f : String × FileEnv) : ScanState :=
  match f.2.size with
  | none => st
  | some size =>
    if size = 0 ∨ maxBytes opts < size then
      pushEvent opts total
        { st with skipped := st.skipped + 1, scanned := st.scanned + 1 }
    else
      let st := { st with matcherCalls := st.matcherCalls + 1 }
      match f.2.yara with
      | Except.error _ =>
        pushEvent opts total
          { st with denied := st.denied + 1, scanned := st.scanned + 1 }
      | Except.ok yara_hits =>
        let api := match f.2.imports with
          | Except.ok imps => some (score imps)
          | Except.error _ => none
        let st := pushEvent opts total { st with scanned := st.scanned + 1 }
        if yara_hits.isEmpty then st
        else
          { st with
            matched := st.matched + 1
            findings := st.findings ++
              [{ path := f.1
                 sha256 := if opts.compute_hashes then f.2.hash else none
                 size := size
                 yara := yara_hits
                 score := score_finding yara_hits
                 api := api }] }

/-- State at the start of the parallel stage: counters from the
enumeration walk (`enumDenied` / `enumSkipped` enumeration failures) and
the initial `cb(0, total)` invocation. -/
def initState (opts : ScanOpts) (total enumDenied enumSkipped : Nat) :
    ScanState :=
  pushEvent opts total
    { scanned := 0, matched := 0, denied := enumDenied
      skipped := enumSkipped, matcherCalls := 0, events := [], findings := [] }

/-- The final state of one `scan_files` run over the enumerated file list
`fs`. -/
def runScanState (opts : ScanOpts) (enumDenied enumSkipped : Nat)
    (fs : List (String × FileEnv)) : ScanState :=
  fs.foldl (processOne opts fs.length)
    (initState opts fs.length enumDenied enumSkipped)

/-- Rust `ScanReport` from `report.rs`, without the two wall-clock timestamp
strings (reads of the system clock, not modelled). -/
structure ScanReport where
  scanned_files : Nat
  matched_files : Nat
  findings : List FileFinding
deriving DecidableEq, Repr

/-- Environment of one `scan_files` call: the enumeration outcome and
whether `rayon::ThreadPoolBuilder::build()` succeeds. -/
structure ScanEnv where
  poolOk : Bool
  enumDenied : Nat
  enumSkipped : Nat
  files : List (String × FileEnv)
deriving DecidableEq, Repr

/-- Rust `scan_files` from `scan.rs`: `pool.build()?` is the only `?` in the
function body after enumeration, so the run fails iff the thread pool
cannot be built; otherwise the serialised fold produces the report. -/
def scan_files (opts : ScanOpts) (env : ScanEnv) : Except String ScanReport :=
  if env.poolOk then
    let st := runScanState opts env.enumDenied env.enumSkipped env.files
    Except.ok { scanned_files := st.scanned, matched_files := st.matched
                findings := st.findings }
  else Except.error "thread pool build failed"

/-- The caller-side pipeline: `YaraEngine::from_rules_file` (rule-bundle
compilation, an external effect whose outcome is `compiled`) followed by
`scan_files`. -/
def runPipeline (compiled : Except String Unit) (opts : ScanOpts)
    (env : ScanEnv) : Except String ScanReport :=
  match compiled with
  | Except.error e => Except.error e
  | Except.ok _ => scan_files opts env

/-- Does the size gate of `scan_files` skip this file?  (`false` for a
file whose stat fails — that file never reaches the gate.) -/
def sizeSkipped (opts : ScanOpts) (f : String × FileEnv) : Bool :=
  match f.2.size with
  | none => false
  | some sz => decide (sz = 0 ∨ maxBytes opts < sz)

/-- Did the stat of this file succeed? -/
def statOk (f : String × FileEnv) : Bool :=
  f.2.size.isSome

/-! ## Concrete inputs used by the theorems below -/

/-- The first import of the spec's two-import scenario. -/
def vaImport : ApiImport :=
  { dll := "ntdll.dll", name := some "VirtualAllocEx"
    is_ordinal := false, ordinal := none }

/-- The second import of the spec's two-import scenario. -/
def wpmImport : ApiImport :=
  { dll := "ntdll.dll", name := some "WriteProcessMemory"
    is_ordinal := false, ordinal := none }

/-- The spec's two-import scenario list. -/
def injectionPair : List ApiImport := [vaImport, wpmImport]

/-- An import classified Crypto with 18 base points and no bonus. -/
def cryptImport : ApiImport :=
  { dll := "x.dll", name := some "CryptEncrypt"
    is_ordinal := false, ordinal := none }

/-- An import classified Registry with 18 base points and no bonus. -/
def regImport : ApiImport :=
  { dll := "advapi32.dll", name := some "RegSetValueExW"
    is_ordinal := false, ordinal := none }

/-- Two suspicious imports whose categories end up with equal sums. -/
def tiePair : List ApiImport := [cryptImport, regImport]

/-- Import `CreateRemoteThread` from `kernel32.dll`. -/
def crtImport : ApiImport :=
  { dll := "kernel32.dll", name := some "CreateRemoteThread"
    is_ordinal := false, ordinal := none }

/-- A rule match with no string hits. -/
def emptyMatch : YaraRuleMatch :=
  { rule := "r", ns := "n", tags := [], meta := [], strings := [] }

/-- A rule match with one string hit. -/
def oneHitMatch : YaraRuleMatch :=
  { rule := "R1", ns := "default", tags := [], meta := []
    strings := [{ identifier := "s0", offset := 0, data_preview := "MZEVIL" }] }

/-- Scan options with a 10 MiB limit and a progress callback. -/
def probeOpts : ScanOpts :=
  { max_file_size_mb := 10, compute_hashes := false, progress := true }

/-- A file whose stat fails. -/
def statDropFile : FileEnv :=
  { size := none, yara := Except.ok [], imports := Except.error "not a PE"
    hash := none }

/-- The all-zero scan state. -/
def zeroState : ScanState :=
  { scanned := 0, matched := 0, denied := 0, skipped := 0
    matcherCalls := 0, events := [], findings := [] }

/-- A readable file of size 0. -/
def zeroSizeFile : FileEnv :=
  { size := some 0, yara := Except.ok [], imports := Except.error "not a PE"
    hash := none }

/-- Scan options with `max_file_size_mb = 0` (threshold 0 bytes). -/
def zeroMbOpts : ScanOpts :=
  { max_file_size_mb := 0, compute_hashes := false, progress := false }

/-- A healthy readable matching file. -/
def okFile : FileEnv :=
  { size := some 5, yara := Except.ok [oneHitMatch]
    imports := Except.error "not a PE", hash := none }

/-- An environment whose thread-pool construction fails on a healthy
file list. -/
def noPoolEnv : ScanEnv :=
  { poolOk := false, enumDenied := 0, enumSkipped := 0
    files := [("f", okFile)] }

/-- The same environment with a working thread pool. -/
def okPoolEnv : ScanEnv :=
  { poolOk := true, enumDenied := 0, enumSkipped := 0
    files := [("f", okFile)] }

/-- A readable file on which the Pattern Matcher fails. -/
def matcherFailFile : FileEnv :=
  { size := some 5, yara := Except.error "io"
    imports := Except.error "not a PE", hash := none }

/-! ## Permutation lemmas for the stable sort -/

theorem insertBy_perm {α : Type} (lt : α → α → Bool) (a : α) (l : List α) :
    (insertBy lt a l).Perm (a :: l) := by
  induction l with
  | nil => simp [insertBy]
  | cons b t ih =>
    simp only [insertBy]
    cases hab : lt a b with
    | true => simp
    | false =>
      simp only [Bool.false_eq_true, if_false]
      exact (ih.cons b).trans (List.Perm.swap a b t)

theorem foldl_insertBy_perm {α : Type} (lt : α → α → Bool)
    (l acc : List α) :
    (l.foldl (fun acc a => insertBy lt a acc) acc).Perm (l ++ acc) := by
  induction l generalizing acc with
  | nil => simp
  | cons a t ih =>
    simp only [List.foldl_cons, List.cons_append]
    exact (ih (insertBy lt a acc)).trans
      ((List.Perm.append_left t (insertBy_perm lt a acc)).trans List.perm_middle)

theorem sortBy_perm {α : Type} (lt : α → α → Bool) (l : List α) :
    (sortBy lt l).Perm l := by
  simpa [sortBy] using foldl_insertBy_perm lt l []

theorem mem_sortBy {α : Type} {lt : α → α → Bool} {l : List α} {a : α}
    (h : a ∈ sortBy lt l) : a ∈ l :=
  (sortBy_perm lt l).mem_iff.mp h

/-! ## C7 — empty import list -/

/-- C7: for the empty import list (under every hash-map iteration order),
the API Risk Scorer returns `is_pe = false`, `total_score = 0`,
severity `"None"`, zero import and suspicious counts, and empty `top`
and `category_scores`. -/
theorem api_score_empty (ord : List ApiCategory) :
    scoreWithOrder ord [] =
      { total_score := 0, severity := "None", imports_total := 0
        suspicious_total := 0, top := [], category_scores := []
        is_pe := false, note := some "No imports extracted" } := rfl

/-! ## C6 — CreateRemoteThread in kernel32.dll -/

/-- C6: `CreateRemoteThread` imported from `kernel32.dll` (not an ordinal
import) is classified ProcessInjection and suspicious; it is the
injection rule that decides it — the generic kernel32 process-launch rule
does not match its name even though the library check alone would pass. -/
theorem classify_createremotethread_injection :
    classify_one crtImport =
      (ApiCategory.ProcessInjection, true, ["Common injection primitive"]) ∧
    has_any crtImport.name_lower process_apis = false ∧
    strContains crtImport.dll_lower "kernel32" = true ∧
    has_any crtImport.name_lower injection_apis = true := by decide

/-! ## C4 — the two-import injection scenario -/

/-- C4: on `[VirtualAllocEx@ntdll.dll, WriteProcessMemory@ntdll.dll]`
(under every admissible hash-map iteration order) both imports classify
as ProcessInjection, each finding scores 45 + 20 = 65 including the
high-signal bonus, the total score is `min 100 (65 + 65) = 100` and the
severity is High. -/
theorem api_score_injection_pair (ord : List ApiCategory)
    (h : validOrder injectionPair ord) :
    (scoreWithOrder ord injectionPair).total_score = 100 ∧
    (scoreWithOrder ord injectionPair).severity = "High" ∧
    (scoreWithOrder ord injectionPair).top.map (fun f => f.category) =
      [ApiCategory.ProcessInjection, ApiCategory.ProcessInjection] ∧
    (scoreWithOrder ord injectionPair).top.map (fun f => f.score) = [65, 65] ∧
    (scoreWithOrder ord injectionPair).top.map (fun f => f.reasons) =
      [["Common injection primitive", "High-signal API"],
       ["Common injection primitive", "High-signal API"]] ∧
    (scoreWithOrder ord injectionPair).suspicious_total = 2 := by
  have hord : ord = [ApiCategory.ProcessInjection] := by
    apply List.perm_singleton.mp
    have hp : presentCats injectionPair = [ApiCategory.ProcessInjection] := by
      decide
    exact hp ▸ h
  subst hord
  decide

/-- Witness for C4 at the canonical iteration order. -/
theorem api_score_injection_pair_witness :
    validOrder injectionPair [ApiCategory.ProcessInjection] ∧
    (scoreWithOrder [ApiCategory.ProcessInjection] injectionPair).total_score
      = 100 ∧
    (scoreWithOrder [ApiCategory.ProcessInjection] injectionPair).severity
      = "High" := by
  have h := api_score_injection_pair [ApiCategory.ProcessInjection] (by decide)
  exact ⟨by decide, h.1, h.2.1⟩

/-! ## C1 — the saturation invariant -/

/-- C1 counterexample: on the two-import injection scenario the single
per-category sum is 130, which exceeds 100 — the per-category
accumulation (`*category_scores.entry(cat).or_insert(0) += points`) is a
plain `u32` addition, neither saturating nor capped. -/
theorem api_category_sum_exceeds_100 :
    validOrder injectionPair [ApiCategory.ProcessInjection] ∧
    (scoreWithOrder [ApiCategory.ProcessInjection] injectionPair).category_scores
      = [(ApiCategory.ProcessInjection, 130)] ∧
    ¬ ((130 : Nat) ≤ 100) := by decide

/-- C1 amended: every per-finding score is at most 100 (the per-finding
saturating cap is real) and `total_score` is at most 100 (the final
clamp is real), but each per-category entry carries the plain
(mod `2^32`) sum of its findings' points, which rule out no value above
100. -/
theorem api_score_saturation (imports : List ApiImport)
    (ord : List ApiCategory) :
    (∀ f ∈ (scoreWithOrder ord imports).top, f.score ≤ 100) ∧
    (scoreWithOrder ord imports).total_score ≤ 100 ∧
    (∀ p ∈ (scoreWithOrder ord imports).category_scores,
      p.2 = catTotal imports p.1) := by
  by_cases he : imports.isEmpty
  · refine ⟨?_, ?_, ?_⟩ <;> simp [scoreWithOrder, he]
  · simp only [scoreWithOrder, he, Bool.false_eq_true, if_false]
    refine ⟨?_, ?_, ?_⟩
    · intro f hf
      have hf₁ : f ∈ sortBy (fun a b => b.score < a.score)
          (findings_of imports) := List.take_subset 50 _ hf
      have hf₂ : f ∈ findings_of imports := mem_sortBy hf₁
      rcases List.mem_map.mp hf₂ with ⟨c, _, rfl⟩
      exact Nat.min_le_right _ 100
    · exact Nat.min_le_right _ 100
    · intro p hp
      have hp₁ : p ∈ (ord.map fun c => (c, catTotal imports c)) :=
        mem_sortBy hp
      rcases List.mem_map.mp hp₁ with ⟨c, _, rfl⟩
      rfl

/-- Witness for C1 amended on the two-import scenario: the only finding
scores are 65 ≤ 100 and the total score is 100 ≤ 100. -/
theorem api_score_saturation_witness :
    (scoreWithOrder [ApiCategory.ProcessInjection] injectionPair).total_score
      ≤ 100 ∧
    (finding_of { api := vaImport, category := ApiCategory.ProcessInjection
                  suspicious := true
                  reasons := ["Common injection primitive"] }).score ≤ 100 := by
  have h := api_score_saturation injectionPair [ApiCategory.ProcessInjection]
  refine ⟨h.2.1, ?_⟩
  exact h.1 _ (by decide)

/-! ## C2 — determinism of `score` -/

/-- Sum of a mapped sort is invariant under permuting the input. -/
theorem sortBy_map_sum {α : Type} (lt : α → α → Bool) (f : α → Nat)
    {l₁ l₂ : List α} (h : l₁.Perm l₂) :
    ((sortBy lt l₁).map f).sum = ((sortBy lt l₂).map f).sum :=
  (((sortBy_perm lt l₁).trans (h.trans (sortBy_perm lt l₂).symm)).map f).sum_eq

/-- C2 counterexample: on two suspicious imports whose categories (Crypto
and Registry) tie at 18 points, two admissible hash-map iteration orders
produce different results — the stable sort keeps the tied category
entries in iteration order, and Rust's `HashMap` iteration order is
unspecified and varies between the two hash-map instances of two `score`
invocations.  The fields differ precisely in `category_scores`. -/
theorem api_score_category_order_nondeterministic :
    validOrder tiePair [ApiCategory.Crypto, ApiCategory.Registry] ∧
    validOrder tiePair [ApiCategory.Registry, ApiCategory.Crypto] ∧
    scoreWithOrder [ApiCategory.Crypto, ApiCategory.Registry] tiePair ≠
      scoreWithOrder [ApiCategory.Registry, ApiCategory.Crypto] tiePair ∧
    (scoreWithOrder [ApiCategory.Crypto, ApiCategory.Registry] tiePair).category_scores
      = [(ApiCategory.Crypto, 18), (ApiCategory.Registry, 18)] ∧
    (scoreWithOrder [ApiCategory.Registry, ApiCategory.Crypto] tiePair).category_scores
      = [(ApiCategory.Registry, 18), (ApiCategory.Crypto, 18)] := by decide

/-- C2 amended: two invocations of `score` on the identical import list
agree on every field — total score, severity, counters, the full
`top_findings` list including its order, `is_pe` and `note` — except
that the `category_scores` list is only determined up to permutation
(its order among equal sums follows the unspecified hash-map iteration
order). -/
theorem api_score_deterministic_up_to_tie_order (imports : List ApiImport)
    (o₁ o₂ : List ApiCategory) (h₁ : validOrder imports o₁)
    (h₂ : validOrder imports o₂) :
    (scoreWithOrder o₁ imports).total_score
      = (scoreWithOrder o₂ imports).total_score ∧
    (scoreWithOrder o₁ imports).severity
      = (scoreWithOrder o₂ imports).severity ∧
    (scoreWithOrder o₁ imports).imports_total
      = (scoreWithOrder o₂ imports).imports_total ∧
    (scoreWithOrder o₁ imports).suspicious_total
      = (scoreWithOrder o₂ imports).suspicious_total ∧
    (scoreWithOrder o₁ imports).top = (scoreWithOrder o₂ imports).top ∧
    (scoreWithOrder o₁ imports).is_pe = (scoreWithOrder o₂ imports).is_pe ∧
    (scoreWithOrder o₁ imports).note = (scoreWithOrder o₂ imports).note ∧
    ((scoreWithOrder o₁ imports).category_scores).Perm
      ((scoreWithOrder o₂ imports).category_scores) := by
  have hoo : o₁.Perm o₂ := h₁.trans h₂.symm
  by_cases he : imports.isEmpty
  · simp [scoreWithOrder, he]
  · have hcats :
        (o₁.map fun c => (c, catTotal imports c)).Perm
          (o₂.map fun c => (c, catTotal imports c)) :=
      hoo.map _
    have hsum :
        ((sortBy (fun a b => b.2 < a.2)
            (o₁.map fun c => (c, catTotal imports c))).map
              (fun p => p.2)).sum =
        ((sortBy (fun a b => b.2 < a.2)
            (o₂.map fun c => (c, catTotal imports c))).map
              (fun p => p.2)).sum :=
      sortBy_map_sum _ _ hcats
    simp only [scoreWithOrder, he, Bool.false_eq_true, if_false]
    refine ⟨?_, ?_, trivial, trivial, trivial, trivial, trivial, ?_⟩
    · rw [hsum]
    · rw [hsum]
    · exact (sortBy_perm _ _).trans (hcats.trans (sortBy_perm _ _).symm)

/-- Witness for C2 amended at the tie scenario. -/
theorem api_score_deterministic_up_to_tie_order_witness :
    (scoreWithOrder [ApiCategory.Crypto, ApiCategory.Registry] tiePair).total_score
      = (scoreWithOrder [ApiCategory.Registry, ApiCategory.Crypto] tiePair).total_score ∧
    (scoreWithOrder [ApiCategory.Crypto, ApiCategory.Registry] tiePair).top
      = (scoreWithOrder [ApiCategory.Registry, ApiCategory.Crypto] tiePair).top ∧
    ((scoreWithOrder [ApiCategory.Crypto, ApiCategory.Registry] tiePair).category_scores).Perm
      ((scoreWithOrder [ApiCategory.Registry, ApiCategory.Crypto] tiePair).category_scores) := by
  have h := api_score_deterministic_up_to_tie_order tiePair
    [ApiCategory.Crypto, ApiCategory.Registry]
    [ApiCategory.Registry, ApiCategory.Crypto] (by decide) (by decide)
  exact ⟨h.1, h.2.2.2.2.1, h.2.2.2.2.2.2.2⟩

/-! ## C5 / C10 — the finding scorer -/

/-- When no `u32` cast, saturation or wrap triggers, `score_finding` is
exactly `min (50 + 10*rules + 2*hits) 100`. -/
theorem score_finding_eq_min (ms : List YaraRuleMatch) (hne : ms ≠ [])
    (h : 50 + 10 * ms.length + 2 * totalStringHits ms < M32) :
    score_finding ms = min (50 + 10 * ms.length + 2 * totalStringHits ms) 100 := by
  have hM32 : M32 = 4294967296 := rfl
  have hemp : ms.isEmpty = false := List.isEmpty_eq_false.mpr hne
  have hL : ms.length < M32 := by omega
  have hS : totalStringHits ms < M32 := by omega
  have hmap : (ms.map fun m => m.strings.length % M32)
      = ms.map fun m => m.strings.length := by
    apply List.map_congr_left
    intro m hm
    have hle : m.strings.length ≤ totalStringHits ms :=
      List.single_le_sum (fun x _ => Nat.zero_le x) _
        (List.mem_map_of_mem _ hm)
    exact Nat.mod_eq_of_lt (lt_of_le_of_lt hle hS)
  have hts : (List.map (fun m => m.strings.length) ms).sum
      = totalStringHits ms := rfl
  simp only [score_finding, hemp, Bool.false_eq_true, if_false, hmap]
  rw [hts, Nat.mod_eq_of_lt hL, Nat.mod_eq_of_lt hS]
  rw [Nat.min_eq_left (by omega : ms.length * 10 ≤ M32 - 1)]
  rw [Nat.min_eq_left (by omega : totalStringHits ms * 2 ≤ M32 - 1)]
  rw [Nat.mod_eq_of_lt (by omega :
    50 + ms.length * 10 + totalStringHits ms * 2 < M32)]
  have harr : 50 + ms.length * 10 + totalStringHits ms * 2
      = 50 + 10 * ms.length + 2 * totalStringHits ms := by ring
  rw [harr]

/-- A replicated zero sums to zero (proved by induction on `n`, so large
literal instances never force list evaluation). -/
theorem sum_replicate_zero (n : Nat) : (List.replicate n (0 : Nat)).sum = 0 := by
  induction n with
  | zero => rfl
  | succ k ih => rw [List.replicate_succ, List.sum_cons, ih]

/-- The list `List.replicate n emptyMatch` is non-empty for positive `n`. -/
theorem replicate_emptyMatch_ne_nil (n : Nat) (hn : n ≠ 0) :
    List.replicate n emptyMatch ≠ [] := by
  intro h
  have h₀ := congrArg List.length h
  rw [List.length_replicate, List.length_nil] at h₀
  exact hn h₀

/-- Closed form of `score_finding` on `n` copies of the zero-hit match. -/
theorem score_finding_replicate_empty (n : Nat) (hn : n ≠ 0) :
    score_finding (List.replicate n emptyMatch)
      = min ((50 + min (n % M32 * 10) (M32 - 1)) % M32) 100 := by
  have hemp : (List.replicate n emptyMatch).isEmpty = false :=
    List.isEmpty_eq_false.mpr (replicate_emptyMatch_ne_nil n hn)
  rw [score_finding, hemp]
  rw [if_neg (by simp : ¬ (false = true))]
  rw [List.length_replicate, List.map_replicate]
  have hx : emptyMatch.strings.length % M32 = 0 := rfl
  rw [hx, sum_replicate_zero, Nat.zero_mod]
  simp

/-- Value of `totalStringHits` on `n` copies of the zero-hit match is zero. -/
theorem totalStringHits_replicate_empty (n : Nat) :
    totalStringHits (List.replicate n emptyMatch) = 0 := by
  rw [totalStringHits, List.map_replicate]
  have hx : emptyMatch.strings.length = 0 := rfl
  rw [hx, sum_replicate_zero]

/-- C5 counterexample: a list of `2^32` matches (each with zero string
hits) is non-empty, yet `score_finding` returns 50 where the spec formula
returns 100 — `yara_matches.len() as u32` truncates `2^32` to 0, so the
rule term vanishes. -/
theorem score_finding_formula_fails_at_u32_wrap :
    List.replicate 4294967296 emptyMatch ≠ [] ∧
    score_finding (List.replicate 4294967296 emptyMatch) = 50 ∧
    spec_finding_score (List.replicate 4294967296 emptyMatch) = 100 ∧
    score_finding (List.replicate 4294967296 emptyMatch) ≠
      spec_finding_score (List.replicate 4294967296 emptyMatch) := by
  have hne : List.replicate 4294967296 emptyMatch ≠ [] :=
    replicate_emptyMatch_ne_nil _ (by norm_num)
  have hemp : (List.replicate 4294967296 emptyMatch).isEmpty = false :=
    List.isEmpty_eq_false.mpr hne
  have h₁ : score_finding (List.replicate 4294967296 emptyMatch) = 50 := by
    rw [score_finding_replicate_empty _ (by norm_num)]
    decide
  have h₂ : spec_finding_score (List.replicate 4294967296 emptyMatch) = 100 := by
    rw [spec_finding_score, hemp]
    rw [if_neg (by simp : ¬ (false = true))]
    rw [List.length_replicate, totalStringHits_replicate_empty]
    norm_num
  refine ⟨hne, h₁, h₂, ?_⟩
  rw [h₁, h₂]
  decide

/-- C5 amended: `score_finding` of the empty list is 0, and on every
non-empty list small enough that no `u32` cast, saturation or wrap
triggers (`50 + 10*rules + 2*hits < 2^32`) it returns exactly the spec
formula `min 100 (50 + 10*rule_count + 2*total_string_hits)` and lies in
`[50, 100]`. -/
theorem score_finding_matches_spec :
    score_finding [] = 0 ∧
    ∀ ms : List YaraRuleMatch, ms ≠ [] →
      50 + 10 * ms.length + 2 * totalStringHits ms < M32 →
      (score_finding ms = spec_finding_score ms ∧
        50 ≤ score_finding ms ∧ score_finding ms ≤ 100) := by
  refine ⟨rfl, fun ms hne h => ?_⟩
  have he := score_finding_eq_min ms hne h
  have hspec : spec_finding_score ms
      = min 100 (50 + 10 * ms.length + 2 * totalStringHits ms) := by
    simp [spec_finding_score, List.isEmpty_eq_false.mpr hne]
  refine ⟨by rw [he, hspec, Nat.min_comm], ?_, ?_⟩
  · rw [he]
    exact Nat.le_min.mpr ⟨by omega, by norm_num⟩
  · rw [he]
    exact Nat.min_le_right _ _

/-- Witness for C5 amended: one rule with one string hit scores
`min 100 (50 + 10 + 2) = 62`. -/
theorem score_finding_matches_spec_witness :
    score_finding [oneHitMatch] = spec_finding_score [oneHitMatch] ∧
    50 ≤ score_finding [oneHitMatch] ∧ score_finding [oneHitMatch] ≤ 100 := by
  have h := score_finding_matches_spec
  exact h.2 [oneHitMatch] (by decide) (by decide)

/-- C10 counterexample: a list of 429496730 matches with no string hits is
non-empty, yet `score_finding` returns 49 < 60 — `saturating_mul` clamps
the rule term at `2^32 - 1` and the unguarded `50 + _ + _` addition then
wraps past `2^32` down to 49. -/
theorem score_finding_below_60_at_saturation :
    List.replicate 429496730 emptyMatch ≠ [] ∧
    score_finding (List.replicate 429496730 emptyMatch) = 49 ∧
    ¬ (60 ≤ score_finding (List.replicate 429496730 emptyMatch)) := by
  have hne : List.replicate 429496730 emptyMatch ≠ [] :=
    replicate_emptyMatch_ne_nil _ (by norm_num)
  have h₁ : score_finding (List.replicate 429496730 emptyMatch) = 49 := by
    rw [score_finding_replicate_empty _ (by norm_num)]
    decide
  refine ⟨hne, h₁, ?_⟩
  rw [h₁]
  decide

/-- C10 amended: on every non-empty match list small enough that no `u32`
cast, saturation or wrap triggers, the finding score is at least 60 (the
50 baseline plus at least one rule's 10 points). -/
theorem score_finding_min_60 (ms : List YaraRuleMatch) (hne : ms ≠ [])
    (h : 50 + 10 * ms.length + 2 * totalStringHits ms < M32) :
    60 ≤ score_finding ms := by
  rw [score_finding_eq_min ms hne h]
  have hL : 0 < ms.length := List.length_pos.mpr hne
  exact Nat.le_min.mpr ⟨by omega, by norm_num⟩

/-- Witness for C10 amended: a single rule with no string hits scores
exactly 60. -/
theorem score_finding_min_60_witness :
    60 ≤ score_finding [emptyMatch] ∧ score_finding [emptyMatch] = 60 := by
  exact ⟨score_finding_min_60 [emptyMatch] (by decide) (by decide), by decide⟩

/-! ## Lemmas about the scan step -/

theorem pushEvent_scanned (opts : ScanOpts) (total : Nat) (st : ScanState) :
    (pushEvent opts total st).scanned = st.scanned := by
  by_cases hp : opts.progress <;> simp [pushEvent, hp]

theorem pushEvent_skipped (opts : ScanOpts) (total : Nat) (st : ScanState) :
    (pushEvent opts total st).skipped = st.skipped := by
  by_cases hp : opts.progress <;> simp [pushEvent, hp]

theorem pushEvent_denied (opts : ScanOpts) (total : Nat) (st : ScanState) :
    (pushEvent opts total st).denied = st.denied := by
  by_cases hp : opts.progress <;> simp [pushEvent, hp]

theorem pushEvent_matcherCalls (opts : ScanOpts) (total : Nat)
    (st : ScanState) :
    (pushEvent opts total st).matcherCalls = st.matcherCalls := by
  by_cases hp : opts.progress <;> simp [pushEvent, hp]

theorem pushEvent_findings (opts : ScanOpts) (total : Nat) (st : ScanState) :
    (pushEvent opts total st).findings = st.findings := by
  by_cases hp : opts.progress <;> simp [pushEvent, hp]

/-- Every branch of `processOne` except the stat-failure branch increments
the scanned counter exactly once; the stat-failure branch leaves the whole
state untouched. -/
theorem processOne_scanned (opts : ScanOpts) (total : Nat) (st : ScanState)
    (f : String × FileEnv) :
    (processOne opts total st f).scanned
      = st.scanned + (if statOk f then 1 else 0) := by
  obtain ⟨name, sz, y, i, hsh⟩ := f
  cases sz with
  | none => simp [processOne, statOk]
  | some s =>
    simp only [processOne, statOk, Option.isSome_some, if_true]
    by_cases hgate : s = 0 ∨ maxBytes opts < s
    · simp [hgate, pushEvent_scanned]
    · simp only [if_neg hgate]
      cases y with
      | error e => simp [pushEvent_scanned]
      | ok hits =>
        by_cases hh : hits.isEmpty <;>
          simp [hh, pushEvent_scanned]

/-- The skipped counter increments exactly on the size-gate branch. -/
theorem processOne_skipped (opts : ScanOpts) (total : Nat) (st : ScanState)
    (f : String × FileEnv) :
    (processOne opts total st f).skipped
      = st.skipped + (if sizeSkipped opts f then 1 else 0) := by
  obtain ⟨name, sz, y, i, hsh⟩ := f
  cases sz with
  | none => simp [processOne, sizeSkipped]
  | some s =>
    simp only [processOne, sizeSkipped]
    by_cases hgate : s = 0 ∨ maxBytes opts < s
    · simp [hgate, pushEvent_skipped]
    · simp only [if_neg hgate, decide_eq_true_eq]
      cases y with
      | error e => simp [hgate, pushEvent_skipped]
      | ok hits =>
        by_cases hh : hits.isEmpty <;>
          simp [hh, hgate, pushEvent_skipped]

/-- The invariant carried through one scan run when a progress callback is
supplied: the recorded progress values are non-decreasing and the last
recorded event carries the current scanned count and the total. -/
def progressInv (total : Nat) (st : ScanState) : Prop :=
  ((st.events.map Prod.fst).Chain' (· ≤ ·)) ∧
  st.events.getLast? = some (st.scanned, total)

theorem progressInv_step (total : Nat) (st st' : ScanState)
    (hev : st'.events = st.events ++ [(st.scanned + 1, total)])
    (hsc : st'.scanned = st.scanned + 1)
    (h : progressInv total st) : progressInv total st' := by
  obtain ⟨hch, hlast⟩ := h
  constructor
  · rw [hev, List.map_append]
    refine List.chain'_append.mpr ⟨hch, List.chain'_singleton _, ?_⟩
    intro x hx y hy
    rw [List.getLast?_map, hlast] at hx
    simp at hx hy
    omega
  · rw [hev, hsc]
    exact List.getLast?_concat _

/-- One scan step preserves the progress invariant. -/
theorem processOne_progressInv (opts : ScanOpts) (total : Nat)
    (st : ScanState) (f : String × FileEnv) (hp : opts.progress = true)
    (h : progressInv total st) :
    progressInv total (processOne opts total st f) := by
  obtain ⟨name, sz, y, i, hsh⟩ := f
  cases sz with
  | none => simpa [processOne] using h
  | some s =>
    simp only [processOne]
    by_cases hgate : s = 0 ∨ maxBytes opts < s
    · simp only [if_pos hgate]
      exact progressInv_step total st _ (by simp [pushEvent, hp]) (by simp [pushEvent, hp]) h
    · simp only [if_neg hgate]
      cases y with
      | error e =>
        exact progressInv_step total st _ (by simp [pushEvent, hp]) (by simp [pushEvent, hp]) h
      | ok hits =>
        by_cases hh : hits.isEmpty
        · simp only [hh, if_true]
          exact progressInv_step total st _ (by simp [pushEvent, hp]) (by simp [pushEvent, hp]) h
        · simp only [hh, Bool.false_eq_true, if_false]
          have hstep := progressInv_step total st
            (pushEvent opts total
              { st with matcherCalls := st.matcherCalls + 1
                        scanned := st.scanned + 1 })
            (by simp [pushEvent, hp]) (by simp [pushEvent, hp]) h
          exact ⟨by simpa using hstep.1, by simpa using hstep.2⟩

theorem foldl_progressInv (opts : ScanOpts) (total : Nat)
    (hp : opts.progress = true) (fs : List (String × FileEnv))
    (st : ScanState) (h : progressInv total st) :
    progressInv total (fs.foldl (processOne opts total) st) := by
  induction fs generalizing st with
  | nil => exact h
  | cons f t ih =>
    exact ih _ (processOne_progressInv opts total st f hp h)

theorem foldl_scanned (opts : ScanOpts) (total : Nat)
    (fs : List (String × FileEnv)) (st : ScanState) :
    (fs.foldl (processOne opts total) st).scanned
      = st.scanned + fs.countP statOk := by
  induction fs generalizing st with
  | nil => simp
  | cons f t ih =>
    rw [List.foldl_cons, ih, processOne_scanned, List.countP_cons]
    omega

theorem foldl_skipped (opts : ScanOpts) (total : Nat)
    (fs : List (String × FileEnv)) (st : ScanState) :
    (fs.foldl (processOne opts total) st).skipped
      = st.skipped + fs.countP (sizeSkipped opts) := by
  induction fs generalizing st with
  | nil => simp
  | cons f t ih =>
    rw [List.foldl_cons, ih, processOne_skipped, List.countP_cons]
    omega

/-! ## C3 — progress monotonicity and the final scanned value -/

/-- C3 counterexample: one enumerated file whose stat fails.  The run's
only progress event is the initial `cb(0, 1)`; the final value passed to
the callback is 0, not the enumerated-file count 1 — the
`std::fs::metadata(p).ok()?` early return skips every counter and the
callback. -/
theorem scan_progress_final_below_total :
    (runScanState probeOpts 0 0 [("a", statDropFile)]).events = [(0, 1)] ∧
    [("a", statDropFile)].length = 1 ∧
    ¬ (((runScanState probeOpts 0 0 [("a", statDropFile)]).events.map
          Prod.fst).getLast? = some ([("a", statDropFile)].length)) := by
  decide

/-- C3 amended: with a progress callback supplied, the sequence of
"scanned" values passed to the callback is non-decreasing, the last
invocation carries the final scanned counter, and that counter equals the
number of enumerated files whose stat succeeded (empty and oversized
files still count as skipped and as scanned, but a file unreadable at
stat time is dropped without touching any counter or invoking the
callback). -/
theorem scan_progress_monotone (opts : ScanOpts) (enumD enumS : Nat)
    (fs : List (String × FileEnv)) (hp : opts.progress = true) :
    ((runScanState opts enumD enumS fs).events.map Prod.fst).Chain' (· ≤ ·) ∧
    (runScanState opts enumD enumS fs).events.getLast?
      = some ((runScanState opts enumD enumS fs).scanned, fs.length) ∧
    (runScanState opts enumD enumS fs).scanned = fs.countP statOk ∧
    (runScanState opts enumD enumS fs).skipped
      = enumS + fs.countP (sizeSkipped opts) := by
  have hinit : progressInv fs.length (initState opts fs.length enumD enumS) := by
    constructor
    · simp [initState, pushEvent, hp]
    · simp [initState, pushEvent, hp]
  have hinv := foldl_progressInv opts fs.length hp fs _ hinit
  have hsc : (runScanState opts enumD enumS fs).scanned = fs.countP statOk := by
    rw [runScanState, foldl_scanned]
    simp [initState, pushEvent, hp]
  have hsk : (runScanState opts enumD enumS fs).skipped
      = enumS + fs.countP (sizeSkipped opts) := by
    rw [runScanState, foldl_skipped]
    simp [initState, pushEvent, hp]
  exact ⟨hinv.1, hinv.2, hsc, hsk⟩

/-- Witness for C3 amended: a run over one healthy file records the
events `[(0, 1), (1, 1)]`. -/
theorem scan_progress_monotone_witness :
    ((runScanState probeOpts 0 0 [("f", okFile)]).events.map
        Prod.fst).Chain' (· ≤ ·) ∧
    (runScanState probeOpts 0 0 [("f", okFile)]).scanned
      = [("f", okFile)].countP statOk ∧
    (runScanState probeOpts 0 0 [("f", okFile)]).events = [(0, 1), (1, 1)] := by
  have h := scan_progress_monotone probeOpts 0 0 [("f", okFile)] rfl
  exact ⟨h.1, h.2.2.1, by decide⟩

/-! ## C8 — failure semantics -/

/-- C8 counterexample: with the rule bundle compiled successfully and a
healthy file list, the run still returns a run-level error when
`rayon::ThreadPoolBuilder::build()` fails (`pool.build()?`), so
rule-bundle compilation failure is not the only run-level fatal error. -/
theorem scan_errors_without_compile_failure :
    runPipeline (Except.ok ()) probeOpts noPoolEnv
      = Except.error "thread pool build failed" ∧
    noPoolEnv.poolOk = false := by decide

/-- C8 amended: the pipeline fails iff rule-bundle compilation or
thread-pool construction fails — both before any file is touched; no
per-file outcome can make it fail.  A per-file matcher failure increments
the access-denied counter, still counts as scanned and emits no finding;
a per-file import-extraction failure merely leaves the emitted finding's
`api` analysis absent. -/
theorem scan_per_file_failures_never_fatal :
    (∀ (c : Except String Unit) (opts : ScanOpts) (env : ScanEnv),
      (runPipeline c opts env).isOk = (c.isOk && env.poolOk)) ∧
    (∀ (opts : ScanOpts) (total : Nat) (st : ScanState) (name : String)
        (sz : Nat) (e : String) (i : Except String (List ApiImport))
        (hsh : Option String),
      ¬ (sz = 0 ∨ maxBytes opts < sz) →
      ((processOne opts total st
          (name, { size := some sz, yara := Except.error e, imports := i
                   hash := hsh })).denied = st.denied + 1 ∧
        (processOne opts total st
          (name, { size := some sz, yara := Except.error e, imports := i
                   hash := hsh })).findings = st.findings ∧
        (processOne opts total st
          (name, { size := some sz, yara := Except.error e, imports := i
                   hash := hsh })).scanned = st.scanned + 1)) ∧
    (∀ (opts : ScanOpts) (total : Nat) (st : ScanState) (name : String)
        (sz : Nat) (hits : List YaraRuleMatch) (ex : String)
        (hsh : Option String),
      ¬ (sz = 0 ∨ maxBytes opts < sz) → hits ≠ [] →
      (processOne opts total st
        (name, { size := some sz, yara := Except.ok hits
                 imports := Except.error ex, hash := hsh })).findings
        = st.findings ++
          [{ path := name
             sha256 := if opts.compute_hashes then hsh else none
             size := sz, yara := hits, score := score_finding hits
             api := none }]) := by
  refine ⟨?_, ?_, ?_⟩
  · intro c opts env
    cases c with
    | error e => simp [runPipeline, Except.isOk, Except.toBool]
    | ok u =>
      cases hpool : env.poolOk <;>
        simp [runPipeline, scan_files, hpool, Except.isOk, Except.toBool]
  · intro opts total st name sz e i hsh hgate
    simp [processOne, if_neg hgate, pushEvent_denied, pushEvent_findings,
      pushEvent_scanned]
  · intro opts total st name sz hits ex hsh hgate hne
    have hh : hits.isEmpty = false := List.isEmpty_eq_false.mpr hne
    simp [processOne, if_neg hgate, hh, pushEvent_findings]

/-- Witness for C8 amended: a successful pool on a healthy file yields a
successful run; a concrete matcher failure is counted denied and yields
no finding; a concrete extraction failure leaves `api` absent. -/
theorem scan_per_file_failures_never_fatal_witness :
    (runPipeline (Except.ok ()) probeOpts okPoolEnv).isOk = true ∧
    (processOne probeOpts 1 zeroState ("f", matcherFailFile)).denied
      = zeroState.denied + 1 ∧
    (processOne probeOpts 1 zeroState ("f", okFile)).findings
      = zeroState.findings ++
        [{ path := "f"
           sha256 := if probeOpts.compute_hashes then okFile.hash else none
           size := 5, yara := [oneHitMatch], score := score_finding [oneHitMatch]
           api := none }] := by
  have h := scan_per_file_failures_never_fatal
  refine ⟨?_, ?_, ?_⟩
  · have h₁ := h.1 (Except.ok ()) probeOpts okPoolEnv
    simpa using h₁
  · exact (h.2.1 probeOpts 1 zeroState "f" 5 "io" (Except.error "not a PE")
      none (by decide)).1
  · exact h.2.2 probeOpts 1 zeroState "f" 5 [oneHitMatch] "not a PE" none
      (by decide) (by decide)

/-! ## C9 — the size boundary -/

/-- C9 counterexample: with `max_file_size_mb = 0` the byte threshold is
0, and a readable file of size 0 — exactly at the threshold — is skipped
by the `size == 0` clause instead of being passed to the Pattern
Matcher. -/
theorem scan_boundary_fails_at_zero_threshold :
    zeroSizeFile.size = some (maxBytes zeroMbOpts) ∧
    (processOne zeroMbOpts 1 zeroState ("z", zeroSizeFile)).skipped
      = zeroState.skipped + 1 ∧
    (processOne zeroMbOpts 1 zeroState ("z", zeroSizeFile)).matcherCalls
      = zeroState.matcherCalls := by decide

/-- C9 amended: a file of nonzero size exactly at the byte threshold is
passed to the Pattern Matcher and not skipped, while a file one byte over
the threshold is skipped and never reaches the matcher. -/
theorem scan_size_boundary (opts : ScanOpts) (total : Nat) (st : ScanState)
    (name : String) (y : Except String (List YaraRuleMatch))
    (i : Except String (List ApiImport)) (hsh : Option String) (sz : Nat) :
    (0 < sz → sz = maxBytes opts →
      (processOne opts total st
        (name, { size := some sz, yara := y, imports := i, hash := hsh })).matcherCalls
        = st.matcherCalls + 1 ∧
      (processOne opts total st
        (name, { size := some sz, yara := y, imports := i, hash := hsh })).skipped
        = st.skipped) ∧
    (sz = maxBytes opts + 1 →
      (processOne opts total st
        (name, { size := some sz, yara := y, imports := i, hash := hsh })).skipped
        = st.skipped + 1 ∧
      (processOne opts total st
        (name, { size := some sz, yara := y, imports := i, hash := hsh })).matcherCalls
        = st.matcherCalls) := by
  constructor
  · intro hpos heq
    have hgate : ¬ (sz = 0 ∨ maxBytes opts < sz) := by omega
    simp only [processOne, if_neg hgate]
    cases y with
    | error e => simp [pushEvent_matcherCalls, pushEvent_skipped]
    | ok hits =>
      by_cases hh : hits.isEmpty <;>
        simp [hh, pushEvent_matcherCalls, pushEvent_skipped]
  · intro heq
    have hgate : sz = 0 ∨ maxBytes opts < sz := by omega
    simp [processOne, if_pos hgate, pushEvent_matcherCalls, pushEvent_skipped]

/-- Witness for C9 amended at a 10 MiB threshold: a 10485760-byte file is
passed to the matcher, a 10485761-byte file is skipped. -/
theorem scan_size_boundary_witness :
    (processOne probeOpts 1 zeroState
      ("f", { size := some (maxBytes probeOpts), yara := Except.ok []
              imports := Except.error "x", hash := none })).matcherCalls
      = zeroState.matcherCalls + 1 ∧
    (processOne probeOpts 1 zeroState
      ("f", { size := some (maxBytes probeOpts + 1), yara := Except.ok []
              imports := Except.error "x", hash := none })).skipped
      = zeroState.skipped + 1 := by
  have h₁ := (scan_size_boundary probeOpts 1 zeroState "f" (Except.ok [])
    (Except.error "x") none (maxBytes probeOpts)).1 (by decide) rfl
  have h₂ := (scan_size_boundary probeOpts 1 zeroState "f" (Except.ok [])
    (Except.error "x") none (maxBytes probeOpts + 1)).2 rfl
  exact ⟨h₁.1, h₂.1⟩

end Revelation
